import Mathlib

/-!
Verification of the data-preparation pipeline of src/main.py (eja-website).

The pipeline loads a CSV of event records, groups rows that share a host
location, left-joins the group summaries back onto the raw rows, and assigns
a color to each row by cycling a palette.  The definitions below are a
shallow embedding of the pure data transformations of main.py:

* a pandas DataFrame of raw rows is a `List EventRecord`;
* `_group_same_hosts` (main.py lines 126-137) is `groupby` on the four key
  columns followed by the string aggregation of issue and year; pandas emits
  the groups in sorted-key order while the embedding emits them in
  first-appearance order, which no downstream operation or claim depends on
  (the join re-keys the summaries);
* `_join_ejcs_grouped` (lines 115-123) first restricts the left frame to the
  four key columns (`filter`) and then left-merges on them, so a joined row
  consists of the key columns plus the aggregated issue/year strings, the
  latter absent when the key has no match;
* `_extend_colors` (lines 146-149) is `divmod` plus list repetition and
  slicing; Python raises ZeroDivisionError on an empty palette, modelled by
  `Option`;
* `prepare_ejcs` (lines 106-112) chains the above and attaches the colors
  positionally (`assign`, which raises when the lengths disagree, modelled
  by the length guard);
* `run_main` models the control flow of `main` (lines 9-25): the effectful
  steps in program order, aborting at the first failure, with the written
  artifacts of `create_output` (lines 43-60) recorded as a trace.

CSV fields: issue and year are integers, city and country strings, and
latitude/longitude are modelled as rationals compared exactly, matching the
exact float equality pandas uses for group and merge keys.
-/

/-- One row of the raw dataset (one line of list_of_ejcs.csv). -/
structure EventRecord where
  issue : Int
  year : Int
  city : String
  country : String
  latitude : Rat
  longitude : Rat
  deriving DecidableEq, Repr

/-- The grouping / join key: the four columns
city, country, latitude, longitude used in main.py lines 118-120 and 128. -/
structure LocationKey where
  city : String
  country : String
  latitude : Rat
  longitude : Rat
  deriving DecidableEq, Repr

/-- Projection of a raw row to its key columns
(the `filter` on line 118 and the `groupby` columns on line 128). -/
def EventRecord.key (r : EventRecord) : LocationKey :=
  { city := r.city, country := r.country
    latitude := r.latitude, longitude := r.longitude }

/-- One row of the grouped frame returned by `_group_same_hosts`: the key
columns plus the aggregated issue and year columns (which keep the column
names issue / year but hold the joined strings). -/
structure LocationSummary where
  key : LocationKey
  issue : String
  year : String
  deriving DecidableEq, Repr

/-- One row of the merged frame returned by `_join_ejcs_grouped`: the key
columns from the left frame plus the right frame's aggregated issue/year
columns, `none` when the left key found no match (left-join semantics). -/
structure JoinedRow where
  key : LocationKey
  issue : Option String
  year : Option String
  deriving DecidableEq, Repr

/-- One row of the frame returned by `prepare_ejcs`: a joined row plus the
color column added by `assign` on line 112. -/
structure AnnotatedRecord where
  key : LocationKey
  issue : Option String
  year : Option String
  color : String
  deriving DecidableEq, Repr

/-- The distinct location keys of the dataset, first occurrence first
(the group keys produced by `groupby` on line 128; pandas sorts them, but
the order of the grouped rows is irrelevant to the join). -/
def distinctKeys : List EventRecord → List LocationKey
  | [] => []
  | r :: rs => r.key :: (distinctKeys rs).filter (fun k => k ≠ r.key)

/-- The member rows of one group, in their original relative order
(pandas `groupby` preserves the within-group row order fed to `agg`). -/
def groupMembers (rows : List EventRecord) (k : LocationKey) : List EventRecord :=
  rows.filter (fun r => r.key = k)

/-- The aggregated row for one group: the two lambdas of the `agg` dict on
lines 130-133, i.e. str-mapping the member column and joining with " | ". -/
def summaryFor (rows : List EventRecord) (k : LocationKey) : LocationSummary :=
  { key := k
    issue := String.intercalate " | " ((groupMembers rows k).map (fun r => toString r.issue))
    year := String.intercalate " | " ((groupMembers rows k).map (fun r => toString r.year)) }

/-- `_group_same_hosts` (main.py lines 126-137): one aggregated row per
distinct key of the input frame. -/
def _group_same_hosts (rows : List EventRecord) : List LocationSummary :=
  (distinctKeys rows).map (summaryFor rows)

/-- The right-frame rows matching a key, in right-frame order
(how pandas `merge` matches each left row). -/
def lookupSummaries (grouped : List LocationSummary) (k : LocationKey) : List LocationSummary :=
  grouped.filter (fun s => s.key = k)

/-- `_join_ejcs_grouped` (main.py lines 115-123): restrict the left frame to
the key columns, then left-merge with the grouped frame on those columns.
Each left row yields one output row per matching right row, or a single row
with absent aggregate columns when there is no match. -/
def _join_ejcs_grouped (rows : List EventRecord) (grouped : List LocationSummary) :
    List JoinedRow :=
  rows.flatMap (fun r =>
    match lookupSummaries grouped r.key with
    | [] => [{ key := r.key, issue := none, year := none }]
    | ms => ms.map (fun s => { key := r.key, issue := some s.issue, year := some s.year }))

/-- `_extend_colors` (main.py lines 146-149): `divmod(n_entries, len(colors))`
then `q * colors + colors[:r]`.  Python's divmod raises ZeroDivisionError on
an empty palette, modelled as `none`. -/
def _extend_colors (colors : List String) (n_entries : Nat) : Option (List String) :=
  if colors.length = 0 then none
  else
    some ((List.replicate (n_entries / colors.length) colors).flatten
      ++ colors.take (n_entries % colors.length))

/-- `prepare_ejcs` (main.py lines 106-112) on an already-parsed dataset:
group, join, extend the colors to the raw row count, and `assign` the color
column positionally.  `assign` raises when the list length differs from the
frame length, modelled by the guard (the lengths always agree, see
`join_grouped_eq`). -/
def prepare_ejcs (rows : List EventRecord) (colors : List String) :
    Option (List AnnotatedRecord) :=
  match _extend_colors colors rows.length with
  | none => none
  | some ext =>
    if ext.length = (_join_ejcs_grouped rows (_group_same_hosts rows)).length then
      some ((_join_ejcs_grouped rows (_group_same_hosts rows)).zipWith
        (fun j c => { key := j.key, issue := j.issue, year := j.year, color := c }) ext)
    else none

/-- The failure classes `main` can abort with. -/
inductive MainError where
  | ioError
  | arithError
  deriving DecidableEq, Repr

/-- The output artifacts written by `create_output` (main.py lines 43-60),
in program order. -/
inductive OutputWrite where
  | htmlOutputFolder
  | htmlIndex
  | webpImage
  deriving DecidableEq, Repr

/-- Control flow of `main` (main.py lines 9-25): `_read_colors` runs first
(line 15), then `prepare_ejcs` (line 16), then rendering and `create_output`
(lines 17-25).  A missing or unreadable input file is `none`; any failure
propagates as an exception, aborting before the remaining calls run, so the
write trace stays empty.  Rendering is an external library call that is
elided; the three file writes of `create_output` are recorded in order. -/
def run_main (paletteFile : Option (List String))
    (datasetFile : Option (List EventRecord)) :
    List OutputWrite × Option MainError :=
  match paletteFile with
  | none => ([], some MainError.ioError)
  | some colors =>
    match datasetFile with
    | none => ([], some MainError.ioError)
    | some rows =>
      match prepare_ejcs rows colors with
      | none => ([], some MainError.arithError)
      | some _ =>
        ([OutputWrite.htmlOutputFolder, OutputWrite.htmlIndex, OutputWrite.webpImage], none)

/-- Latitude 48.85 of the Paris scenario, as the reduced rational 977/20
(given as a literal structure so that kernel evaluation needs no
rational arithmetic). -/
def latParis : Rat := ⟨977, 20, by norm_num, by norm_num⟩

/-- Longitude 2.35 of the Paris scenario, as the reduced rational 47/20. -/
def lonParis : Rat := ⟨47, 20, by norm_num, by norm_num⟩

/-- First row of the spec's Paris scenario: issue 1, year 1990. -/
def parisA : EventRecord :=
  { issue := 1, year := 1990, city := "Paris", country := "France"
    latitude := latParis, longitude := lonParis }

/-- Second row of the spec's Paris scenario: issue 2, year 1995,
same location key as `parisA`. -/
def parisB : EventRecord :=
  { issue := 2, year := 1995, city := "Paris", country := "France"
    latitude := latParis, longitude := lonParis }

/-- The shared location key of the Paris scenario. -/
def parisKey : LocationKey :=
  { city := "Paris", country := "France"
    latitude := latParis, longitude := lonParis }

/-- The aggregated row the Paris scenario expects. -/
def parisSummary : LocationSummary :=
  { key := parisKey, issue := "1 | 2", year := "1990 | 1995" }

/-- The joined row the pipeline produces for one raw row: its key columns
plus its group's aggregated issue and year strings. -/
def joinedRowFor (rows : List EventRecord) (r : EventRecord) : JoinedRow :=
  { key := r.key
    issue := some (summaryFor rows r.key).issue
    year := some (summaryFor rows r.key).year }

/-- A grouped row at a location key distinct from the Paris key, used to
exercise the unmatched-key join. -/
def berlinSummary : LocationSummary :=
  { key := { city := "Berlin", country := "Germany", latitude := 52, longitude := 13 }
    issue := "3", year := "2000" }

/-! ### Lemmas about the grouping -/

/-- The row `_group_same_hosts` emits for a key is keyed by that key. -/
theorem summaryFor_key (rows : List EventRecord) (k : LocationKey) :
    (summaryFor rows k).key = k := rfl

/-- The group keys are exactly the keys occurring in the dataset. -/
theorem mem_distinctKeys (rows : List EventRecord) (k : LocationKey) :
    k ∈ distinctKeys rows ↔ k ∈ rows.map EventRecord.key := by
  induction rows with
  | nil => simp [distinctKeys]
  | cons r rs ih =>
    simp only [distinctKeys, List.mem_cons, List.mem_filter, List.map_cons, ih,
      decide_eq_true_eq]
    by_cases hk : k = r.key
    · simp [hk]
    · simp [hk]

/-- Each location key occurs at most once among the group keys. -/
theorem nodup_distinctKeys (rows : List EventRecord) : (distinctKeys rows).Nodup := by
  induction rows with
  | nil => simp [distinctKeys]
  | cons r rs ih =>
    rw [distinctKeys, List.nodup_cons]
    refine ⟨?_, ih.filter _⟩
    intro hmem
    have := (List.mem_filter.mp hmem).2
    simp at this

/-- Filtering the grouped rows for one key yields the summary of that key
when the key occurs among the (duplicate-free) group keys, else nothing. -/
theorem filter_map_summary (rows : List EventRecord) (ks : List LocationKey)
    (k : LocationKey) (h : ks.Nodup) :
    ((ks.map (summaryFor rows)).filter (fun s => s.key = k))
      = if k ∈ ks then [summaryFor rows k] else [] := by
  induction ks with
  | nil => simp
  | cons a as ih =>
    rcases List.nodup_cons.mp h with ⟨ha, has⟩
    by_cases hak : a = k
    · subst hak
      have htail : ((as.map (summaryFor rows)).filter (fun s => s.key = a)) = [] := by
        rw [ih has, if_neg ha]
      simp [List.filter_cons, summaryFor_key, htail]
    · have hmem : (k ∈ a :: as) ↔ k ∈ as := by
        constructor
        · intro hm
          rcases List.mem_cons.mp hm with h1 | h1
          · exact absurd h1.symm hak
          · exact h1
        · exact fun hm => List.mem_cons_of_mem a hm
      rw [List.map_cons, List.filter_cons]
      simp only [summaryFor_key]
      rw [if_neg (by simpa using hak), ih has]
      simp only [hmem]

/-- What the left merge finds for each key: exactly the one aggregated row
when the key occurs in the dataset, nothing otherwise. -/
theorem lookupSummaries_group (rows : List EventRecord) (k : LocationKey) :
    lookupSummaries (_group_same_hosts rows) k
      = if k ∈ rows.map EventRecord.key then [summaryFor rows k] else [] := by
  rw [lookupSummaries, _group_same_hosts,
    filter_map_summary rows _ k (nodup_distinctKeys rows)]
  simp [mem_distinctKeys]

/-- A flatMap in which every element produces a one-element list is a map. -/
theorem flatMap_eq_map {α β : Type} (l : List α) (f : α → List β) (g : α → β)
    (h : ∀ a ∈ l, f a = [g a]) : l.flatMap f = l.map g := by
  induction l with
  | nil => rfl
  | cons a as ih =>
    rw [List.flatMap_cons, List.map_cons, h a (List.mem_cons_self a as),
      ih (fun b hb => h b (List.mem_cons_of_mem _ hb))]
    rfl

/-- The pipeline's left join is a per-row map over the raw dataset: every raw
row finds exactly one grouped row, so the merge neither drops, duplicates nor
reorders rows. -/
theorem join_grouped_eq (rows : List EventRecord) :
    _join_ejcs_grouped rows (_group_same_hosts rows)
      = rows.map (joinedRowFor rows) := by
  unfold _join_ejcs_grouped
  apply flatMap_eq_map
  intro r hr
  have hk : r.key ∈ rows.map EventRecord.key := List.mem_map_of_mem EventRecord.key hr
  rw [lookupSummaries_group rows r.key, if_pos hk]
  rfl

/-! ### Lemmas about the color cycling -/

/-- The length of `q * colors` (Python list repetition). -/
theorem flatten_replicate_length {α : Type} (q : Nat) (P : List α) :
    ((List.replicate q P).flatten).length = q * P.length := by
  induction q with
  | zero => simp
  | succ n ih =>
    rw [List.replicate_succ, List.flatten_cons, List.length_append, ih,
      Nat.succ_mul, Nat.add_comm]

/-- Indexing into `q * colors` cycles through the palette. -/
theorem flatten_replicate_getElem {α : Type} (q : Nat) (P : List α) (i : Nat)
    (h : i < q * P.length) :
    ((List.replicate q P).flatten)[i]? = P[i % P.length]? := by
  induction q generalizing i with
  | zero =>
    rw [Nat.zero_mul] at h
    exact absurd h (Nat.not_lt_zero i)
  | succ n ih =>
    rw [List.replicate_succ, List.flatten_cons]
    by_cases hi : i < P.length
    · rw [List.getElem?_append_left hi, Nat.mod_eq_of_lt hi]
    · push_neg at hi
      have hb : i - P.length < n * P.length := by
        rw [Nat.succ_mul] at h
        omega
      have hmod : (i - P.length) % P.length = i % P.length := by
        conv_rhs => rw [show i = P.length + (i - P.length) from by omega]
        rw [Nat.add_mod_left]
      rw [List.getElem?_append_right hi, ih (i - P.length) hb, hmod]

/-- For a non-empty palette, `_extend_colors` returns exactly `n_entries`
tokens and the i-th token is the palette entry at index i mod palette
length. -/
theorem extend_colors_getElem (colors : List String) (n : Nat) (h : colors ≠ []) :
    ∃ out, _extend_colors colors n = some out ∧ out.length = n ∧
      ∀ i, i < n → out[i]? = colors[i % colors.length]? := by
  have hL : 0 < colors.length := List.length_pos.mpr h
  have hr : n % colors.length < colors.length := Nat.mod_lt n hL
  have hdm : colors.length * (n / colors.length) + n % colors.length = n :=
    Nat.div_add_mod n colors.length
  have hcm : n / colors.length * colors.length = colors.length * (n / colors.length) :=
    Nat.mul_comm _ _
  refine ⟨(List.replicate (n / colors.length) colors).flatten
      ++ colors.take (n % colors.length), ?_, ?_, ?_⟩
  · unfold _extend_colors
    rw [if_neg (by omega)]
  · rw [List.length_append, flatten_replicate_length, List.length_take,
      Nat.min_eq_left (Nat.le_of_lt hr)]
    omega
  · intro i hi
    by_cases hq : i < n / colors.length * colors.length
    · rw [List.getElem?_append_left (by rw [flatten_replicate_length]; exact hq),
        flatten_replicate_getElem _ _ _ hq]
    · push_neg at hq
      have hlen : ((List.replicate (n / colors.length) colors).flatten).length ≤ i := by
        rw [flatten_replicate_length]; exact hq
      rw [List.getElem?_append_right hlen, flatten_replicate_length]
      have hsplit : i = n / colors.length * colors.length
          + (i - n / colors.length * colors.length) := by
        omega
      have hj : i - n / colors.length * colors.length < n % colors.length := by
        omega
      rw [List.getElem?_take, if_pos hj]
      congr 1
      conv_rhs => rw [hsplit]
      rw [Nat.mul_comm, Nat.mul_add_mod, Nat.mod_eq_of_lt (by omega)]

/-! ### Elementwise characterization of the prepared output -/

/-- Elementwise view of zipping two columns together. -/
theorem zipWith_getElem? {α β γ : Type} (f : α → β → γ) (l₁ : List α) (l₂ : List β)
    (i : Nat) :
    (List.zipWith f l₁ l₂)[i]? = (l₁[i]?).bind (fun a => (l₂[i]?).map (f a)) := by
  induction l₁ generalizing l₂ i with
  | nil => simp
  | cons a as ih =>
    cases l₂ with
    | nil => simp
    | cons b bs =>
      cases i with
      | zero => simp
      | succ n => simpa using ih bs n

/-- Full elementwise characterization of `prepare_ejcs` for a non-empty
palette: it succeeds, returns one row per raw row in raw order, and the i-th
output row consists of the i-th raw row's key columns, that row's group
aggregate strings, and the color at palette index i mod palette length. -/
theorem prepare_ejcs_getElem (rows : List EventRecord) (colors : List String)
    (h : colors ≠ []) :
    ∃ out, prepare_ejcs rows colors = some out ∧ out.length = rows.length ∧
      ∀ i : Nat, out[i]? = (rows[i]?).bind (fun r =>
        (colors[i % colors.length]?).map (fun c =>
          { key := r.key
            issue := some (summaryFor rows r.key).issue
            year := some (summaryFor rows r.key).year
            color := c })) := by
  obtain ⟨ext, hext, hlen, helem⟩ := extend_colors_getElem colors rows.length h
  have hjoin := join_grouped_eq rows
  have hjlen : (_join_ejcs_grouped rows (_group_same_hosts rows)).length = rows.length := by
    rw [hjoin, List.length_map]
  have hcond : ext.length = (_join_ejcs_grouped rows (_group_same_hosts rows)).length := by
    rw [hjlen, hlen]
  refine ⟨(_join_ejcs_grouped rows (_group_same_hosts rows)).zipWith
      (fun j c => { key := j.key, issue := j.issue, year := j.year, color := c }) ext,
      ?_, ?_, ?_⟩
  · unfold prepare_ejcs
    rw [hext]
    exact if_pos hcond
  · rw [List.length_zipWith, hjlen, hlen, Nat.min_self]
  · intro i
    rw [zipWith_getElem?, hjoin, List.getElem?_map]
    cases hri : rows[i]? with
    | none => simp
    | some r =>
      have hi : i < rows.length := by
        by_contra hge
        push_neg at hge
        rw [List.getElem?_eq_none hge] at hri
        exact Option.noConfusion hri
      rw [helem i hi]
      rfl

/-! ### Claim theorems -/

/-- C1: for every dataset, the output of the joiner (`_join_ejcs_grouped`
composed after `_group_same_hosts`) has the same length as the raw dataset
and carries the raw rows' keys in the raw order, so the left join neither
drops, duplicates nor reorders rows; and the right side has exactly one row
per location key (its key column is duplicate-free). -/
theorem join_preserves_length_and_order (rows : List EventRecord) :
    ((_group_same_hosts rows).map LocationSummary.key).Nodup ∧
    (_join_ejcs_grouped rows (_group_same_hosts rows)).length = rows.length ∧
    (_join_ejcs_grouped rows (_group_same_hosts rows)).map JoinedRow.key
      = rows.map EventRecord.key := by
  refine ⟨?_, ?_, ?_⟩
  · have hkeys : (_group_same_hosts rows).map LocationSummary.key = distinctKeys rows := by
      unfold _group_same_hosts
      rw [List.map_map]
      simp [Function.comp_def, summaryFor_key]
    rw [hkeys]
    exact nodup_distinctKeys rows
  · rw [join_grouped_eq, List.length_map]
  · rw [join_grouped_eq, List.map_map]
    rfl

/-- C2: for every non-empty palette and count n, `_extend_colors` returns
exactly n tokens, structured as the full copies of the palette that fit
followed by the first n mod len tokens, so that the i-th token is
palette[i mod len(palette)]; in particular cycling ["red", "green"] to
length 5 yields ["red", "green", "red", "green", "red"]. -/
theorem extend_colors_cycles (colors : List String) (n : Nat) (h : colors ≠ []) :
    (∃ out, _extend_colors colors n = some out ∧ out.length = n ∧
      out = (List.replicate (n / colors.length) colors).flatten
        ++ colors.take (n % colors.length) ∧
      ∀ i, i < n → out[i]? = colors[i % colors.length]?) ∧
    _extend_colors ["red", "green"] 5
      = some ["red", "green", "red", "green", "red"] := by
  refine ⟨?_, by decide⟩
  obtain ⟨out, h1, h2, h3⟩ := extend_colors_getElem colors n h
  refine ⟨out, h1, h2, ?_, h3⟩
  have hne : ¬ colors.length = 0 := fun h0 => h (List.length_eq_zero.mp h0)
  have hdef := h1
  unfold _extend_colors at hdef
  rw [if_neg hne] at hdef
  exact (Option.some.inj hdef).symm

/-- Witness for C2: the theorem applied to the palette ["red", "green"] and
the count 5 of the spec scenario. -/
theorem extend_colors_cycles_witness :
    (["red", "green"] : List String) ≠ [] ∧
    ((∃ out, _extend_colors ["red", "green"] 5 = some out ∧ out.length = 5 ∧
      out = (List.replicate (5 / (["red", "green"] : List String).length)
          ["red", "green"]).flatten
        ++ (["red", "green"] : List String).take
            (5 % (["red", "green"] : List String).length) ∧
      ∀ i, i < 5 → out[i]?
        = (["red", "green"] : List String)[i % (["red", "green"] : List String).length]?) ∧
    _extend_colors ["red", "green"] 5
      = some ["red", "green", "red", "green", "red"]) :=
  ⟨by decide, extend_colors_cycles ["red", "green"] 5 (by decide)⟩

/-- C3 counterexample: two raw rows at the same location whose own issue and
year values differ produce two identical prepared rows, whose issue/year
columns hold the group aggregate strings rather than the records' own
values — the joiner restricts the left frame to the key columns before
merging, so the prepared rows do not carry the per-row issue/year fields. -/
theorem prepare_drops_per_row_fields :
    parisA.issue ≠ parisB.issue ∧ parisA.year ≠ parisB.year ∧
    prepare_ejcs [parisA, parisB] ["red"]
      = some [{ key := parisKey, issue := some "1 | 2"
                year := some "1990 | 1995", color := "red" },
              { key := parisKey, issue := some "1 | 2"
                year := some "1990 | 1995", color := "red" }] := by
  refine ⟨by decide, by decide, by decide⟩

/-- C3 (amended): every row of the final prepared output consists of the
original record's key columns (city, country, latitude, longitude), its
matching group summary's concatenated issues/years strings — which occupy
the issue/year columns, replacing the record's own issue and year values —
and an assigned color token. -/
theorem prepare_row_contents (rows : List EventRecord) (colors : List String)
    (h : colors ≠ []) :
    ∃ out, prepare_ejcs rows colors = some out ∧
      ∀ i : Nat, out[i]? = (rows[i]?).bind (fun r =>
        (colors[i % colors.length]?).map (fun c =>
          { key := r.key
            issue := some (summaryFor rows r.key).issue
            year := some (summaryFor rows r.key).year
            color := c })) := by
  obtain ⟨out, h1, h2, h3⟩ := prepare_ejcs_getElem rows colors h
  exact ⟨out, h1, h3⟩

/-- Witness for the amended C3 on the Paris scenario with palette ["red"]. -/
theorem prepare_row_contents_witness :
    (["red"] : List String) ≠ [] ∧
    (∃ out, prepare_ejcs [parisA, parisB] ["red"] = some out ∧
      ∀ i : Nat, out[i]? = (([parisA, parisB] : List EventRecord)[i]?).bind (fun r =>
        ((["red"] : List String)[i % (["red"] : List String).length]?).map (fun c =>
          { key := r.key
            issue := some (summaryFor [parisA, parisB] r.key).issue
            year := some (summaryFor [parisA, parisB] r.key).year
            color := c }))) :=
  ⟨by decide, prepare_row_contents [parisA, parisB] ["red"] (by decide)⟩

/-- C4: grouping yields exactly one summary per distinct location key
(counting matches by exact key equality); every summary's issues and years
strings are the string forms of its member rows' issue (resp. year) values,
in the members' original relative order, joined with " | "; and on the
Paris scenario (two rows at one key with issue/year pairs (1, 1990) and
(2, 1995)) the single summary has issues "1 | 2" and years "1990 | 1995",
and both joined output rows carry those same strings. -/
theorem group_same_hosts_spec :
    (∀ rows : List EventRecord, ∀ k : LocationKey,
      ((_group_same_hosts rows).filter (fun s => s.key = k)).length
        = if k ∈ rows.map EventRecord.key then 1 else 0) ∧
    (∀ rows : List EventRecord, ∀ s ∈ _group_same_hosts rows,
      s.issue = String.intercalate " | "
          ((rows.filter (fun r => r.key = s.key)).map (fun r => toString r.issue)) ∧
      s.year = String.intercalate " | "
          ((rows.filter (fun r => r.key = s.key)).map (fun r => toString r.year))) ∧
    _group_same_hosts [parisA, parisB] = [parisSummary] ∧
    _join_ejcs_grouped [parisA, parisB] (_group_same_hosts [parisA, parisB])
      = [{ key := parisKey, issue := some "1 | 2", year := some "1990 | 1995" },
         { key := parisKey, issue := some "1 | 2", year := some "1990 | 1995" }] := by
  refine ⟨?_, ?_, by decide, by decide⟩
  · intro rows k
    have hfil := lookupSummaries_group rows k
    rw [lookupSummaries] at hfil
    rw [hfil]
    by_cases hk : k ∈ rows.map EventRecord.key
    · rw [if_pos hk, if_pos hk]
      rfl
    · rw [if_neg hk, if_neg hk]
      rfl
  · intro rows s hs
    unfold _group_same_hosts at hs
    obtain ⟨k, hk, rfl⟩ := List.mem_map.mp hs
    exact ⟨rfl, rfl⟩

/-- Witness for C4: its per-summary clause discharged on the Paris
scenario's summary. -/
theorem group_same_hosts_spec_witness :
    (parisSummary ∈ _group_same_hosts [parisA, parisB]) ∧
    (parisSummary.issue = String.intercalate " | "
        ((([parisA, parisB] : List EventRecord).filter
            (fun r => r.key = parisSummary.key)).map (fun r => toString r.issue)) ∧
     parisSummary.year = String.intercalate " | "
        ((([parisA, parisB] : List EventRecord).filter
            (fun r => r.key = parisSummary.key)).map (fun r => toString r.year))) :=
  ⟨by decide, group_same_hosts_spec.2.1 [parisA, parisB] parisSummary (by decide)⟩

/-- C5: in `prepare_ejcs`, with n the number of raw records, the i-th
output record (0-indexed, raw dataset order) is assigned
palette[i mod len(palette)], repeating from the start of the palette when
the dataset is longer than the palette. -/
theorem prepare_colors_positional (rows : List EventRecord) (colors : List String)
    (h : colors ≠ []) :
    ∃ out, prepare_ejcs rows colors = some out ∧ out.length = rows.length ∧
      ∀ i, i < rows.length →
        (out[i]?).map AnnotatedRecord.color = colors[i % colors.length]? := by
  obtain ⟨out, h1, h2, h3⟩ := prepare_ejcs_getElem rows colors h
  refine ⟨out, h1, h2, ?_⟩
  intro i hi
  have hc : i % colors.length < colors.length := Nat.mod_lt i (List.length_pos.mpr h)
  rw [h3 i, List.getElem?_eq_getElem hi, List.getElem?_eq_getElem hc]
  rfl

/-- Witness for C5: a three-row dataset over a two-color palette, where the
third row wraps around to the first color. -/
theorem prepare_colors_positional_witness :
    (["red", "green"] : List String) ≠ [] ∧
    (∃ out, prepare_ejcs [parisA, parisB, parisA] ["red", "green"] = some out ∧
      out.length = ([parisA, parisB, parisA] : List EventRecord).length ∧
      ∀ i, i < ([parisA, parisB, parisA] : List EventRecord).length →
        (out[i]?).map AnnotatedRecord.color
          = (["red", "green"] : List String)[i % (["red", "green"] : List String).length]?) :=
  ⟨by decide, prepare_colors_positional [parisA, parisB, parisA] ["red", "green"] (by decide)⟩

/-- C6: on an empty palette the color cycler fails with the arithmetic
(division-by-zero) error for every count and never returns a result, and
the failure aborts the run: `prepare_ejcs` fails, and `main` aborts with
the arithmetic error having written no output. -/
theorem extend_colors_empty_fails (n : Nat) (rows : List EventRecord) :
    _extend_colors [] n = none ∧
    prepare_ejcs rows [] = none ∧
    run_main (some []) (some rows) = ([], some MainError.arithError) :=
  ⟨rfl, rfl, rfl⟩

/-- C7: a raw record whose location key matches no grouped row does not
make the joiner fail: the record is kept in the output with its aggregate
columns absent (left-join semantics). -/
theorem join_keeps_unmatched (rows : List EventRecord)
    (grouped : List LocationSummary) (r : EventRecord) (hr : r ∈ rows)
    (hnone : ∀ s ∈ grouped, s.key ≠ r.key) :
    ({ key := r.key, issue := none, year := none } : JoinedRow)
      ∈ _join_ejcs_grouped rows grouped := by
  unfold _join_ejcs_grouped
  refine List.mem_flatMap.mpr ⟨r, hr, ?_⟩
  have hlook : lookupSummaries grouped r.key = [] := by
    rw [lookupSummaries, List.filter_eq_nil_iff]
    intro s hs
    simpa using hnone s hs
  rw [hlook]
  simp

/-- Witness for C7: the Paris row against a grouped frame holding only the
Berlin key. -/
theorem join_keeps_unmatched_witness :
    (parisA ∈ [parisA]) ∧ (∀ s ∈ [berlinSummary], s.key ≠ parisA.key) ∧
    ({ key := parisA.key, issue := none, year := none } : JoinedRow)
      ∈ _join_ejcs_grouped [parisA] [berlinSummary] :=
  ⟨by decide, by decide,
    join_keeps_unmatched [parisA] [berlinSummary] parisA (by decide) (by decide)⟩

/-- C8: a missing palette file aborts `main` with an IO error before any
output file is written: the palette read precedes dataset preparation,
rendering and every write, so whatever the dataset file holds, the write
trace is empty. -/
theorem run_main_missing_palette (dataset : Option (List EventRecord)) :
    run_main none dataset = ([], some MainError.ioError) := rfl

/-- C9: the prepare step is deterministic and idempotent: two runs of
`prepare_ejcs` on equal palette and dataset contents return equal
annotated sequences — the embedded pipeline is a pure function of the two
input files and carries no state between runs. -/
theorem prepare_deterministic (rows rows2 : List EventRecord)
    (colors colors2 : List String) (h1 : rows = rows2) (h2 : colors = colors2) :
    prepare_ejcs rows colors = prepare_ejcs rows2 colors2 := by
  rw [h1, h2]

/-- Witness for C9 on the Paris dataset and the one-color palette. -/
theorem prepare_deterministic_witness :
    ([parisA, parisB] : List EventRecord) = [parisA, parisB] ∧
    (["red"] : List String) = ["red"] ∧
    prepare_ejcs [parisA, parisB] ["red"] = prepare_ejcs [parisA, parisB] ["red"] :=
  ⟨rfl, rfl,
    prepare_deterministic [parisA, parisB] [parisA, parisB] ["red"] ["red"] rfl rfl⟩

/-- C10: on an empty dataset with a non-empty palette the prepare step
succeeds and returns the empty sequence: grouping yields no summaries, the
join yields no rows, and the cycler at count 0 yields no colors. -/
theorem prepare_empty_dataset (colors : List String) (h : colors ≠ []) :
    _group_same_hosts [] = [] ∧
    _join_ejcs_grouped [] (_group_same_hosts []) = [] ∧
    _extend_colors colors 0 = some [] ∧
    prepare_ejcs [] colors = some [] := by
  have hne : ¬ colors.length = 0 := fun h0 => h (List.length_eq_zero.mp h0)
  have hext : _extend_colors colors 0 = some [] := by
    unfold _extend_colors
    rw [if_neg hne, Nat.zero_div, Nat.zero_mod]
    simp
  refine ⟨rfl, rfl, hext, ?_⟩
  unfold prepare_ejcs
  rw [List.length_nil, hext]
  rfl

/-- Witness for C10 with palette ["red"]. -/
theorem prepare_empty_dataset_witness :
    (["red"] : List String) ≠ [] ∧
    (_group_same_hosts [] = [] ∧
     _join_ejcs_grouped [] (_group_same_hosts []) = [] ∧
     _extend_colors ["red"] 0 = some [] ∧
     prepare_ejcs [] ["red"] = some []) :=
  ⟨by decide, prepare_empty_dataset ["red"] (by decide)⟩
